import Mathlib

/-!
Verification development for the git-commit-agent repository.

The definitions below are a shallow embedding of the command-safety and
execution layer:

* `src/src/utils/git-commands.ts` — `validateCommandSyntax` (the syntax
  normalizer) and `validateGitRepo`;
* `src/src/utils/validators.ts` — `validateCommitMessage` (the
  conventional-commit validator);
* the master tool `execute_git_command_tool` (file `src/unnamed/part_004`) —
  safety classifier (`isDangerousCommand`, `requiresCaution`), commit-message
  staging, the executor call, result formatting and the try/catch/finally
  structure.

Effectful pieces (the subprocess, the filesystem, `Date.now`, `process.cwd`)
are modelled by an explicit `Oracle` supplying their outcomes and by an
explicit association-list filesystem; the tool run returns, besides the
structured `ToolResult`, the trace of subprocess spawns (each with the
filesystem snapshot at spawn time) and the final filesystem, so that
"no subprocess is spawned" and "temp file is gone" are statable.
Wall-clock durations and console logging have no bearing on any claim and
are not modelled; the `partial​Results` field of the TS `ToolResult`
interface is never set by the master tool and is likewise omitted.
-/

namespace GitAgent

/-! ### JS string helpers -/

/-- Substring test on character lists: `infixCheck needle hay` is true iff
`needle` occurs contiguously inside `hay`.  Embeds
`String.prototype.includes`. -/
def infixCheck (needle : List Char) : List Char → Bool
  | [] => needle.isEmpty
  | c :: rest => needle.isPrefixOf (c :: rest) || infixCheck needle rest

/-- `jsIncludes s sub` embeds the JavaScript expression `s.includes(sub)`. -/
def jsIncludes (s sub : String) : Bool :=
  infixCheck sub.data s.data

/-- `jsStartsWith s pre` embeds `s.startsWith(pre)`: `pre` is a leading
literal of `s` (stated on the character lists). -/
def jsStartsWith (s pre : String) : Bool :=
  pre.data.isPrefixOf s.data

/-- `jsSubstringFrom s n` embeds `s.substring(n)`: everything from
character index `n` on. -/
def jsSubstringFrom (s : String) (n : Nat) : String :=
  String.mk (s.data.drop n)

/-! ### Command Safety Classifier (part_004 lines 23-61) -/

/-- `DANGEROUS_COMMANDS` from part_004 line 23. -/
def DANGEROUS_COMMANDS : List String :=
  ["reset --hard", "push --force", "push -f", "clean -fd", "clean -f", "rm -rf"]

/-- `CAUTION_COMMANDS` from part_004 line 31. -/
def CAUTION_COMMANDS : List String :=
  ["rebase", "merge", "cherry-pick", "reset"]

/-- `isDangerousCommand` from part_004 lines 44-47: substring match of each
dangerous phrase against `"<command> <args joined by spaces>"`. -/
def isDangerousCommand (command : String) (args : List String) : Bool :=
  let fullCommand := command ++ " " ++ String.intercalate " " args
  DANGEROUS_COMMANDS.any (fun dangerous => jsIncludes fullCommand dangerous)

/-- `requiresCaution` from part_004 lines 59-61: exact membership of the
command name in `CAUTION_COMMANDS`. -/
def requiresCaution (command : String) : Bool :=
  CAUTION_COMMANDS.contains command

/-! ### Syntax Normalizer (`validateCommandSyntax`, git-commands.ts 219-268) -/

/-- The `equalsOptions` allow-list (git-commands.ts lines 224-237). -/
def equalsOptions : List String :=
  ["unified", "format", "pretty", "date", "color", "abbrev", "depth",
   "since", "until", "author", "committer", "grep"]

/-- `validateCommandSyntax` (git-commands.ts lines 219-268).  The `while`
loop over the index `i` is rendered as list recursion: the `if (!arg)`
branch skips empty strings; a `--`-option whose name (the characters after
`--`) is in `equalsOptions` and whose successor exists and does not start
with `-` is merged into a single `--name=value` token consuming both;
everything else is emitted unchanged.  The `command` parameter is unused,
exactly as in the source. -/
def validateCommandSyntax (command : String) : List String → List String
  | [] => []
  | arg :: rest =>
    if arg = "" then
      validateCommandSyntax command rest
    else if jsStartsWith arg "--" then
      match rest with
      | next :: rest2 =>
        if equalsOptions.contains (jsSubstringFrom arg 2) && !jsStartsWith next "-" then
          (arg ++ "=" ++ next) :: validateCommandSyntax command rest2
        else
          arg :: validateCommandSyntax command (next :: rest2)
      | [] => [arg]
    else
      arg :: validateCommandSyntax command rest

/-! ### Commit message validator (`validateCommitMessage`, validators.ts 51-77) -/

/-- The eleven type labels of the regex in validators.ts line 63. -/
def COMMIT_TYPES : List String :=
  ["feat", "fix", "docs", "style", "refactor", "perf", "test", "build",
   "ci", "chore", "revert"]

/-- The regex metacharacter `.`: any character except a newline. -/
def dotChar (c : Char) : Bool :=
  c ≠ '\n'

/-- Match of the regex tail `: .+` at the head of `cs` (the regex is not
anchored at the end, so one non-newline character after `": "` suffices). -/
def descMatch : List Char → Bool
  | ':' :: ' ' :: c :: _ => dotChar c
  | _ => false

/-- Backtracking search for the regex tail `.+\): .+` given that an opening
parenthesis has been consumed: `seen` counts inner characters consumed so
far; each position may close the scope (if at least one inner character was
seen and `: .+` matches afterwards) or extend the inner `.+`. -/
def scopeTail (seen : Nat) : List Char → Bool
  | [] => false
  | c :: rest =>
    (c = ')' && decide (1 ≤ seen) && descMatch rest) ||
    (dotChar c && scopeTail (seen + 1) rest)

/-- Match of the regex tail `(\(.+\))?: .+` at the head of `cs`. -/
def afterType (cs : List Char) : Bool :=
  descMatch cs ||
  (match cs with
   | '(' :: rest => scopeTail 0 rest
   | _ => false)

/-- Embedding of `RegExp.test` for `/^(t1|...|tn)(\(.+\))?: .+/`: some
alternative `t` is a leading literal of `line` and the remainder matches
`(\(.+\))?: .+`. -/
def testConventional (types : List String) (line : String) : Bool :=
  types.any (fun t =>
    t.data.isPrefixOf line.data && afterType (line.data.drop t.data.length))

/-- Result record `{ valid, errors }` of `validateCommitMessage`. -/
structure ValidationResult where
  valid : Bool
  errors : List String
deriving Repr, DecidableEq

/-- Error string pushed for an empty or all-whitespace message. -/
def emptyMsgError : String :=
  "Commit message cannot be empty"

/-- Error string pushed when the first line fails the conventional regex. -/
def formatErrorMsg : String :=
  "First line should follow conventional commit format: type(scope): description\nValid types: feat, fix, docs, style, refactor, perf, test, build, ci, chore, revert"

/-- Error string pushed when the first line exceeds 72 characters. -/
def lengthErrorMsg : String :=
  "First line should be 72 characters or less"

/-- First line of a message: `message.split("\n")[0] || ""`, i.e. the
characters before the first newline. -/
def firstLineOf (message : String) : String :=
  String.mk (message.data.takeWhile (fun c => c ≠ '\n'))

/-- The test `!message || message.trim().length === 0`: trimming leaves
nothing exactly when every character is whitespace (true in particular for
the empty string). -/
def isBlankMessage (message : String) : Bool :=
  message.data.all (fun c => c.isWhitespace)

/-- `validateCommitMessage` (validators.ts lines 51-77).  The two format
checks are both performed and their errors accumulated in push order;
`valid` is the emptiness of the accumulated list. -/
def validateCommitMessage (message : String) : ValidationResult :=
  if isBlankMessage message then
    { valid := false, errors := [emptyMsgError] }
  else
    let firstLine := firstLineOf message
    let errors :=
      (if testConventional COMMIT_TYPES firstLine then [] else [formatErrorMsg]) ++
      (if firstLine.length > 72 then [lengthErrorMsg] else [])
    { valid := errors.isEmpty, errors := errors }

/-! ### Derived predicates about the normalizer, and claim-side reference
definitions for the refinement claims -/

/-- The merge condition of the normalizer over one adjacent pair, as the
spec words it: `a` is a long-form (`--`) flag whose name is in the
allow-list and `b` does not itself look like a flag. -/
def mergeTrigger (a b : String) : Bool :=
  jsStartsWith a "--" && equalsOptions.contains (jsSubstringFrom a 2) && !jsStartsWith b "-"

/-- Normal form for argument lists: no empty token and no adjacent
mergeable pair.  Outputs of the normalizer are normal, and normal lists are
fixed by the normalizer. -/
def isNormal : List String → Bool
  | [] => true
  | [a] => !(a = "")
  | a :: b :: rest => !(a = "") && !mergeTrigger a b && isNormal (b :: rest)

/-- The normalizer exactly as claim C4 words it: scan left to right; merge
an allow-listed long-form flag with an immediately following existing
argument that does not start with `-`; every other argument passes through
unchanged.  (No treatment of empty strings.) -/
def claimNormalize : List String → List String
  | [] => []
  | arg :: rest =>
    match rest with
    | next :: rest2 =>
      if mergeTrigger arg next then
        (arg ++ "=" ++ next) :: claimNormalize rest2
      else
        arg :: claimNormalize (next :: rest2)
    | [] => [arg]

/-- Claim C4's normalizer amended by the one fact its counterexample
forces: an empty-string argument is skipped and never emitted. -/
def claimNormalizeAmended : List String → List String
  | [] => []
  | arg :: rest =>
    if arg = "" then claimNormalizeAmended rest
    else
      match rest with
      | next :: rest2 =>
        if mergeTrigger arg next then
          (arg ++ "=" ++ next) :: claimNormalizeAmended rest2
        else
          arg :: claimNormalizeAmended (next :: rest2)
      | [] => [arg]

/-- Side condition of claim C10 as amended: no allow-listed long-form flag
is immediately followed by an empty-string argument (such an empty string
is consumed as the flag's empty merge value rather than skipped). -/
def noEmptyMergeValue : List String → Bool
  | [] => true
  | [_] => true
  | a :: b :: rest => !(mergeTrigger a b && b = "") && noEmptyMergeValue (b :: rest)

/-- The type labels exactly as claim C5 lists them: `feature` instead of
the source's `feat`. -/
def CLAIM_TYPES : List String :=
  ["feature", "fix", "docs", "style", "refactor", "perf", "test", "build",
   "ci", "chore", "revert"]

/-- The commit-message validator as claim C5 words it: identical rule
engine, but the first-line type label must come from `CLAIM_TYPES`. -/
def claimValidateCommitMessage (message : String) : ValidationResult :=
  if isBlankMessage message then
    { valid := false, errors := [emptyMsgError] }
  else
    let firstLine := firstLineOf message
    let errors :=
      (if testConventional CLAIM_TYPES firstLine then [] else [formatErrorMsg]) ++
      (if firstLine.length > 72 then [lengthErrorMsg] else [])
    { valid := errors.isEmpty, errors := errors }

/-! ### Data model of the master tool (`execute_git_command_tool`, part_004) -/

/-- The tool-invocation input schema (part_004 lines 185-195, 364-381), after
the `allowDangerous = false` default has been applied.  `commitMessage` is an
optional string; the JS truthiness test `commitMessage` is false for both the
absent value and the empty string. -/
structure Request where
  command : String
  args : List String
  allowDangerous : Bool
  commitMessage : Option String
deriving Repr, DecidableEq

/-- What `execa("git", ..., { reject: false })` resolves with: exit code and
captured streams (part_004 lines 262-268). -/
structure ExecOutcome where
  exitCode : Int
  stdout : String
  stderr : String
deriving Repr, DecidableEq

/-- The `details` payloads that flow into error results: the `{ command,
args }` object of the blocked branch, the `{ exitCode, stderr, stdout }`
object of the failed branch, and opaque payloads carried by thrown errors. -/
inductive ErrDetails where
  | noDetails
  | cmdArgs (command : String) (args : List String)
  | execInfo (exitCode : Int) (stderr : String) (stdout : String)
  | raw (info : String)
deriving Repr, DecidableEq

/-- A thrown JS error as observed by the catch block of part_004 lines
324-348: `code`, `recoverable` and `suggestion` may be absent (or falsy) on
a non-`GitError` exception; `details` likewise. -/
structure Thrown where
  code : Option String
  message : String
  details : ErrDetails
  recoverable : Option Bool
  suggestion : Option String
deriving Repr, DecidableEq

/-- The `error` object of a failure `ToolResult` (git-error.ts interface;
part_004 builds it at lines 240-250, 295-305, 336-346). -/
structure ErrorInfo where
  code : String
  message : String
  command : String
  details : ErrDetails
  recoverable : Bool
  suggestion : Option String
deriving Repr, DecidableEq

/-- The `data` object of a success `ToolResult` (part_004 lines 313-319).
The wall-clock `executionTime` field is not modelled. -/
structure SuccessData where
  command : String
  stdout : String
  stderr : String
  exitCode : Int
deriving Repr, DecidableEq

/-- The structured `ToolResult` returned across the boundary (git-error.ts
interface).  A missing `warnings` key is the empty list. -/
structure ToolResult where
  success : Bool
  data : Option SuccessData
  error : Option ErrorInfo
  warnings : List String
deriving Repr, DecidableEq

/-! ### Environment model -/

/-- The filesystem visible to the tool: an association list from paths to
file contents. -/
abbrev FS := List (String × String)

/-- `fs.writeFile p c` on success: create or overwrite. -/
def fsWrite (fs : FS) (p c : String) : FS :=
  (p, c) :: fs.filter (fun e => e.1 ≠ p)

/-- `fs.unlink p`: removes the file when present, throws when absent. -/
def fsUnlink (fs : FS) (p : String) : Except Unit FS :=
  if fs.any (fun e => e.1 = p) then
    .ok (fs.filter (fun e => e.1 ≠ p))
  else
    .error ()

/-- Content of the file at `p`, when present. -/
def fsLookup (fs : FS) (p : String) : Option String :=
  (fs.find? (fun e => e.1 = p)).map (fun e => e.2)

/-- Oracle for the effectful collaborators of one tool invocation:
whether `git rev-parse --git-dir` succeeds (`repoValid`), what
`fs.writeFile` does, what `execa` resolves with or throws, and the values of
`process.cwd()` and `Date.now()` used to build the temp-file name. -/
structure Oracle where
  repoValid : Bool
  writeBehavior : Except Thrown Unit
  execBehavior : Except Thrown ExecOutcome
  cwd : String
  now : Nat

/-- One subprocess spawn: the program, its argv (`[command, ...args]`), and
the filesystem snapshot at the moment of the spawn. -/
structure SpawnEvent where
  program : String
  argv : List String
  fsAt : FS
deriving Repr, DecidableEq

/-- Result of one full tool invocation: the structured `ToolResult`, the
spawn trace, and the final filesystem. -/
structure RunResult where
  result : ToolResult
  spawns : List SpawnEvent
  fsFinal : FS

/-! ### The master tool (part_004 lines 184-359) -/

/-- `path.join(process.cwd(), "commit_message_" + Date.now() + ".txt")`
(part_004 line 209). -/
def tempMessagePath (o : Oracle) : String :=
  o.cwd ++ "/commit_message_" ++ toString o.now ++ ".txt"

/-- The thrown `GitError` of `validateGitRepo` (git-commands.ts 134-146). -/
def notGitRepoThrown : Thrown :=
  { code := some "NOT_GIT_REPO"
    message := "Not a git repository"
    details := .raw "execa rev-parse failure"
    recoverable := some false
    suggestion := some "Initialize a git repository with 'git init' or navigate to a git repository" }

/-- Suggestion attached to a blocked dangerous command (part_004 line 228). -/
def blockedSuggestion : String :=
  "This command could cause data loss. If you're sure, set allowDangerous: true"

/-- Suggestion attached to a nonzero-exit failure (part_004 line 292). -/
def failedSuggestion : String :=
  "Check the command syntax and repository state"

/-- Fallback suggestion of the catch-all block (part_004 line 344). -/
def unknownSuggestion : String :=
  "Check git installation and repository state"

/-- Caution warning pushed for commands in `CAUTION_COMMANDS` (part_004
line 258). -/
def cautionWarning (command : String) : String :=
  "⚠️  Caution: '" ++ command ++ "' command requires careful review"

/-- `"git <command> <args joined>"` as interpolated throughout part_004. -/
def renderedCommand (command : String) (args : List String) : String :=
  "git " ++ command ++ " " ++ String.intercalate " " args

/-- Whether the commit-message staging branch is entered (part_004 line 207):
`command === "commit" && commitMessage`, the latter being JS truthiness. -/
def stagingActive (req : Request) : Bool :=
  req.command = "commit" && req.commitMessage.getD "" ≠ ""

/-- The argument rewrite of the staging branch (part_004 lines 213-214):
drop every literal `-m` and every token starting with `"commit message"`,
then put the `-F <file>` pair in front. -/
def stageArgs (file : String) (args : List String) : List String :=
  "-F" :: file ::
    args.filter (fun arg => arg ≠ "-m" && !jsStartsWith arg "commit message")

/-- The argument list the safety classifier sees (part_004 line 222): the
normalized arguments, further rewritten by message staging when that branch
is active. -/
def classifierArgs (req : Request) (o : Oracle) : List String :=
  let args1 := validateCommandSyntax req.command req.args
  if stagingActive req then stageArgs (tempMessagePath o) args1 else args1

/-- The blocked-command error result (part_004 lines 222-252). -/
def blockedResult (command : String) (args : List String) : ToolResult :=
  { success := false
    data := none
    error := some
      { code := "DANGEROUS_COMMAND_BLOCKED"
        message := "Dangerous command blocked: " ++ renderedCommand command args
        command := renderedCommand command args
        details := .cmdArgs command args
        recoverable := false
        suggestion := some blockedSuggestion }
    warnings := [] }

/-- The nonzero-exit error result (part_004 lines 282-307). -/
def failedResult (command : String) (args : List String) (res : ExecOutcome) : ToolResult :=
  { success := false
    data := none
    error := some
      { code := "GIT_COMMAND_FAILED"
        message := "Git command failed: " ++ renderedCommand command args
        command := renderedCommand command args
        details := .execInfo res.exitCode res.stderr res.stdout
        recoverable := true
        suggestion := some failedSuggestion }
    warnings := [] }

/-- The success result (part_004 lines 310-323). -/
def successResult (command : String) (args : List String) (res : ExecOutcome)
    (warnings : List String) : ToolResult :=
  { success := true
    data := some
      { command := renderedCommand command args
        stdout := res.stdout
        stderr := res.stderr
        exitCode := res.exitCode }
    error := none
    warnings := warnings }

/-- The catch-all conversion of a thrown error (part_004 lines 324-348);
`args` is the value of the mutable `args` variable at the moment of the
throw.  `error.code || ...` and `error.suggestion || ...` are JS truthiness
(absent or empty string falls back); `error.recoverable ?? true` is nullish
coalescing. -/
def catchResult (command : String) (args : List String) (e : Thrown) : ToolResult :=
  { success := false
    data := none
    error := some
      { code := match e.code with
          | some c => if c = "" then "UNKNOWN_ERROR" else c
          | none => "UNKNOWN_ERROR"
        message := e.message
        command := renderedCommand command args
        details := e.details
        recoverable := e.recoverable.getD true
        suggestion := some (match e.suggestion with
          | some s => if s = "" then unknownSuggestion else s
          | none => unknownSuggestion) }
    warnings := [] }

/-- Outcome of the `try` block body: the returned result or the thrown
error, together with the spawn trace, the filesystem, the value of the
`commitMessageFile` variable, and the value of the mutable `args` variable
at exit (used by the catch block's interpolation). -/
structure TryOutcome where
  outcome : Except Thrown ToolResult
  spawns : List SpawnEvent
  fs : FS
  commitMessageFile : Option String
  argsNow : List String

/-- The portion of the `try` body after the staging branch (part_004 lines
221-323): safety check, caution warnings, `execa` call, classification of
the exit code. -/
def afterStage (req : Request) (o : Oracle) (fs : FS) (cmf : Option String)
    (args : List String) : TryOutcome :=
  if !req.allowDangerous && isDangerousCommand req.command args then
    { outcome := .ok (blockedResult req.command args)
      spawns := [], fs := fs, commitMessageFile := cmf, argsNow := args }
  else
    let warnings := if requiresCaution req.command then [cautionWarning req.command] else []
    let ev : SpawnEvent := { program := "git", argv := req.command :: args, fsAt := fs }
    match o.execBehavior with
    | .error e =>
      { outcome := .error e, spawns := [ev], fs := fs,
        commitMessageFile := cmf, argsNow := args }
    | .ok res =>
      if res.exitCode = 0 then
        { outcome := .ok (successResult req.command args res warnings)
          spawns := [ev], fs := fs, commitMessageFile := cmf, argsNow := args }
      else
        { outcome := .ok (failedResult req.command args res)
          spawns := [ev], fs := fs, commitMessageFile := cmf, argsNow := args }

/-- The `try` block body (part_004 lines 199-323): repository precondition,
syntax normalization, commit-message staging, then `afterStage`. -/
def runTry (req : Request) (o : Oracle) (fs0 : FS) : TryOutcome :=
  if !o.repoValid then
    { outcome := .error notGitRepoThrown, spawns := [], fs := fs0,
      commitMessageFile := none, argsNow := req.args }
  else
    let args1 := validateCommandSyntax req.command req.args
    if stagingActive req then
      let file := tempMessagePath o
      match o.writeBehavior with
      | .error e =>
        { outcome := .error e, spawns := [], fs := fs0,
          commitMessageFile := some file, argsNow := args1 }
      | .ok _ =>
        let fs1 := fsWrite fs0 file (req.commitMessage.getD "")
        afterStage req o fs1 (some file) (stageArgs file args1)
    else
      afterStage req o fs0 none args1

/-- The `finally` block (part_004 lines 349-358): when a temp file path was
assigned, attempt `fs.unlink` and swallow its failure. -/
def runFinally (fs : FS) (cmf : Option String) : FS :=
  match cmf with
  | none => fs
  | some p =>
    match fsUnlink fs p with
    | .ok fs2 => fs2
    | .error _ => fs

/-- One full invocation of `execute_git_command_tool`: run the `try` body,
convert a thrown error through the catch block, then run the `finally`
cleanup. -/
def runTool (req : Request) (o : Oracle) (fs0 : FS) : RunResult :=
  let t := runTry req o fs0
  { result :=
      match t.outcome with
      | .ok r => r
      | .error e => catchResult req.command t.argsNow e
    spawns := t.spawns
    fsFinal := runFinally t.fs t.commitMessageFile }

/-- Oracle of a healthy environment (valid repository, write succeeds,
subprocess exits 0), used by concrete witness runs. -/
def oracleOk : Oracle :=
  { repoValid := true
    writeBehavior := .ok ()
    execBehavior := .ok ⟨0, "", ""⟩
    cwd := "/repo"
    now := 0 }

/-- Oracle whose subprocess exits with code 1, used by concrete witness
runs of the failure path. -/
def oracleFail : Oracle :=
  { repoValid := true
    writeBehavior := .ok ()
    execBehavior := .ok ⟨1, "", "error: pathspec"⟩
    cwd := "/repo"
    now := 0 }

/-! ### Helper lemmas about the string embedding -/

theorem jsStartsWith_dashdash {a : String} (h : jsStartsWith a "--" = true) :
    ∃ t, a.data = '-' :: '-' :: t := by
  rw [jsStartsWith, List.isPrefixOf_iff_prefix] at h
  obtain ⟨t, ht⟩ := h
  exact ⟨t, by rw [← ht]; rfl⟩

theorem jsStartsWith_dash {a : String} (h : jsStartsWith a "-" = true) :
    ∃ t, a.data = '-' :: t := by
  rw [jsStartsWith, List.isPrefixOf_iff_prefix] at h
  obtain ⟨t, ht⟩ := h
  exact ⟨t, by rw [← ht]; rfl⟩

theorem jsStartsWith_dash_of_data {a : String} {t : List Char} (h : a.data = '-' :: t) :
    jsStartsWith a "-" = true := by
  rw [jsStartsWith, List.isPrefixOf_iff_prefix]
  exact ⟨t, by rw [h]; rfl⟩

theorem ne_empty_of_data_cons {a : String} {c : Char} {t : List Char}
    (h : a.data = c :: t) : a ≠ "" := by
  intro he
  subst he
  exact List.cons_ne_nil c t ((show ([] : List Char) = c :: t from h).symm)

theorem merged_data (a b : String) : (a ++ "=" ++ b).data = a.data ++ '=' :: b.data := by
  have h1 : "=".data = ['='] := rfl
  rw [String.data_append, String.data_append, h1, List.append_assoc]
  rfl

theorem merged_starts_dash {a : String} (h : jsStartsWith a "--" = true) (b : String) :
    jsStartsWith (a ++ "=" ++ b) "-" = true := by
  obtain ⟨t, ht⟩ := jsStartsWith_dashdash h
  apply jsStartsWith_dash_of_data (t := '-' :: (t ++ '=' :: b.data))
  rw [merged_data, ht]
  rfl

theorem merged_ne_empty {a : String} (h : jsStartsWith a "--" = true) (b : String) :
    a ++ "=" ++ b ≠ "" := by
  obtain ⟨t, ht⟩ := jsStartsWith_dashdash h
  apply ne_empty_of_data_cons (c := '-') (t := '-' :: (t ++ '=' :: b.data))
  rw [merged_data, ht]
  rfl

theorem eq_char_mem_merged {a : String} {t : List Char}
    (ht : a.data = '-' :: '-' :: t) (b : String) :
    '=' ∈ (jsSubstringFrom (a ++ "=" ++ b) 2).data := by
  show '=' ∈ ((a ++ "=" ++ b).data).drop 2
  rw [merged_data, ht]
  simp

theorem contains_false_of_eq_mem {x : String} (h : '=' ∈ x.data) :
    equalsOptions.contains x = false := by
  by_contra hc
  rw [Bool.not_eq_false] at hc
  have hx : x ∈ equalsOptions := by
    simpa using hc
  fin_cases hx <;> revert h <;> decide

theorem mergeTrigger_merged_false {a : String} (h : jsStartsWith a "--" = true)
    (b c : String) : mergeTrigger (a ++ "=" ++ b) c = false := by
  obtain ⟨t, ht⟩ := jsStartsWith_dashdash h
  have hc := contains_false_of_eq_mem (eq_char_mem_merged ht b)
  rw [mergeTrigger, hc]
  simp only [Bool.and_false, Bool.false_and]

theorem mergeTrigger_false_of_dash {a b : String} (h : jsStartsWith b "-" = true) :
    mergeTrigger a b = false := by
  simp [mergeTrigger, h]

theorem mergeTrigger_false_of_not_dashdash {a b : String}
    (h : ¬ jsStartsWith a "--" = true) : mergeTrigger a b = false := by
  simp [mergeTrigger, h]

theorem mergeTrigger_false_of_not_contains {a b : String}
    (h : equalsOptions.contains (jsSubstringFrom a 2) = false) :
    mergeTrigger a b = false := by
  rw [mergeTrigger, h]
  simp only [Bool.and_false, Bool.false_and]

/-! ### Normalizer theory: outputs are normal, normal lists are fixed -/

theorem vcs_head_dash (c : String) {n : String} (hn : jsStartsWith n "-" = true)
    (rest : List String) :
    ∃ z t, validateCommandSyntax c (n :: rest) = z :: t ∧ jsStartsWith z "-" = true := by
  have hne : n ≠ "" := by
    obtain ⟨t, ht⟩ := jsStartsWith_dash hn
    exact ne_empty_of_data_cons ht
  cases rest with
  | nil =>
    simp only [validateCommandSyntax, if_neg hne]
    by_cases h2 : jsStartsWith n "--" = true
    · rw [if_pos h2]
      exact ⟨n, [], rfl, hn⟩
    · rw [if_neg h2]
      exact ⟨n, [], rfl, hn⟩
  | cons next rest2 =>
    simp only [validateCommandSyntax, if_neg hne]
    by_cases h2 : jsStartsWith n "--" = true
    · rw [if_pos h2]
      by_cases h3 : (equalsOptions.contains (jsSubstringFrom n 2) && !jsStartsWith next "-") = true
      · rw [if_pos h3]
        exact ⟨_, _, rfl, merged_starts_dash h2 next⟩
      · rw [if_neg h3]
        exact ⟨n, _, rfl, hn⟩
    · rw [if_neg h2]
      exact ⟨n, _, rfl, hn⟩

theorem isNormal_cons {a : String} {l : List String} (ha : a ≠ "")
    (hl : isNormal l = true)
    (hm : ∀ z t, l = z :: t → mergeTrigger a z = false) :
    isNormal (a :: l) = true := by
  cases l with
  | nil => simp [isNormal, ha]
  | cons z t =>
    have hz := hm z t rfl
    simp [isNormal, ha, hz, hl]

theorem isNormal_vcs_aux (c : String) :
    ∀ (n : Nat) (l : List String), l.length ≤ n →
      isNormal (validateCommandSyntax c l) = true := by
  intro n
  induction n with
  | zero =>
    intro l hl
    have h0 : l = [] := List.length_eq_zero.mp (Nat.le_zero.mp hl)
    subst h0
    rfl
  | succ n ih =>
    intro l hl
    cases l with
    | nil => rfl
    | cons arg rest =>
      rw [List.length_cons, Nat.succ_le_succ_iff] at hl
      by_cases he : arg = ""
      · subst he
        rw [validateCommandSyntax.eq_def]
        exact ih rest hl
      · by_cases hd : jsStartsWith arg "--" = true
        · cases rest with
          | nil =>
            simp only [validateCommandSyntax, if_neg he, if_pos hd]
            show isNormal [arg] = true
            simp [isNormal, he]
          | cons next rest2 =>
            by_cases h3 :
                (equalsOptions.contains (jsSubstringFrom arg 2) && !jsStartsWith next "-") = true
            · simp only [validateCommandSyntax, if_neg he, if_pos hd, if_pos h3]
              apply isNormal_cons (merged_ne_empty hd next)
              · exact ih rest2 (by simp only [List.length_cons] at hl; omega)
              · intro z t _
                exact mergeTrigger_merged_false hd next z
            · simp only [validateCommandSyntax, if_neg he, if_pos hd, if_neg h3]
              rcases Bool.eq_false_or_eq_true
                  (equalsOptions.contains (jsSubstringFrom arg 2)) with hco | hco
              · have hnd : jsStartsWith next "-" = true := by
                  rcases Bool.eq_false_or_eq_true (jsStartsWith next "-") with hh | hh
                  · exact hh
                  · exact absurd (by rw [hco, hh]; rfl) h3
                obtain ⟨z, t, hzt, hz⟩ := vcs_head_dash c hnd rest2
                apply isNormal_cons he
                · exact ih (next :: rest2) (by simpa using hl)
                · intro z' t' hz'
                  rw [hzt] at hz'
                  injection hz' with h1 _
                  rw [← h1]
                  exact mergeTrigger_false_of_dash hz
              · apply isNormal_cons he
                · exact ih (next :: rest2) (by simpa using hl)
                · intro z t _
                  exact mergeTrigger_false_of_not_contains hco
        · cases rest with
          | nil =>
            simp only [validateCommandSyntax, if_neg he, if_neg hd]
            show isNormal [arg] = true
            simp [isNormal, he]
          | cons b t0 =>
            simp only [validateCommandSyntax, if_neg he, if_neg hd]
            apply isNormal_cons he
            · exact ih (b :: t0) (by simpa using hl)
            · intro z t _
              exact mergeTrigger_false_of_not_dashdash hd

theorem isNormal_vcs (c : String) (l : List String) :
    isNormal (validateCommandSyntax c l) = true :=
  isNormal_vcs_aux c l.length l le_rfl

theorem vcs_fixed_of_isNormal (c : String) :
    ∀ l : List String, isNormal l = true → validateCommandSyntax c l = l := by
  intro l
  induction l with
  | nil => intro _; rfl
  | cons a rest ih =>
    intro h
    cases rest with
    | nil =>
      have ha : a ≠ "" := by
        simpa [isNormal] using h
      simp only [validateCommandSyntax, if_neg ha]
      by_cases hd : jsStartsWith a "--" = true
      · rw [if_pos hd]
      · rw [if_neg hd]
    | cons b t =>
      rw [isNormal] at h
      simp only [Bool.and_eq_true, Bool.not_eq_true'] at h
      have ha : a ≠ "" := of_decide_eq_false h.1.1
      have htr : mergeTrigger a b = false := h.1.2
      have hrest : isNormal (b :: t) = true := h.2
      simp only [validateCommandSyntax, if_neg ha]
      by_cases hd : jsStartsWith a "--" = true
      · rw [if_pos hd]
        have h3 : (equalsOptions.contains (jsSubstringFrom a 2) && !jsStartsWith b "-") = false := by
          rw [mergeTrigger, hd, Bool.true_and] at htr
          exact htr
        rw [if_neg (by rw [h3]; exact Bool.false_ne_true)]
        rw [ih hrest]
      · rw [if_neg hd]
        rw [ih hrest]

theorem and_eq_true_iff {a b : Bool} : (a && b) = true ↔ a = true ∧ b = true := by
  simp

theorem vcs_nil (c : String) : validateCommandSyntax c [] = [] := rfl

theorem vcs_skip (c : String) (rest : List String) :
    validateCommandSyntax c ("" :: rest) = validateCommandSyntax c rest := by
  rw [validateCommandSyntax.eq_def]
  rfl

theorem vcs_merge (c : String) {a next : String} (ha : a ≠ "")
    (hd : jsStartsWith a "--" = true)
    (hm : (equalsOptions.contains (jsSubstringFrom a 2) && !jsStartsWith next "-") = true)
    (rest2 : List String) :
    validateCommandSyntax c (a :: next :: rest2) =
      (a ++ "=" ++ next) :: validateCommandSyntax c rest2 := by
  simp only [validateCommandSyntax, if_neg ha, if_pos hd, if_pos hm]

theorem vcs_pass (c : String) {a next : String} (ha : a ≠ "")
    (h : ¬ (jsStartsWith a "--" = true ∧
      (equalsOptions.contains (jsSubstringFrom a 2) && !jsStartsWith next "-") = true))
    (rest2 : List String) :
    validateCommandSyntax c (a :: next :: rest2) =
      a :: validateCommandSyntax c (next :: rest2) := by
  by_cases hd : jsStartsWith a "--" = true
  · have hm : ¬ (equalsOptions.contains (jsSubstringFrom a 2) && !jsStartsWith next "-") = true :=
      fun hm => h ⟨hd, hm⟩
    simp only [validateCommandSyntax, if_neg ha, if_pos hd, if_neg hm]
  · simp only [validateCommandSyntax, if_neg ha, if_neg hd]

theorem vcs_single (c : String) {a : String} (ha : a ≠ "") :
    validateCommandSyntax c [a] = [a] := by
  by_cases hd : jsStartsWith a "--" = true
  · simp only [validateCommandSyntax, if_neg ha, if_pos hd]
  · simp only [validateCommandSyntax, if_neg ha, if_neg hd]

theorem cnA_skip (rest : List String) :
    claimNormalizeAmended ("" :: rest) = claimNormalizeAmended rest := by
  rw [claimNormalizeAmended.eq_def]
  rfl

theorem cnA_single {a : String} (ha : a ≠ "") : claimNormalizeAmended [a] = [a] := by
  simp only [claimNormalizeAmended, if_neg ha]

theorem cnA_merge {a next : String} (ha : a ≠ "") (ht : mergeTrigger a next = true)
    (rest2 : List String) :
    claimNormalizeAmended (a :: next :: rest2) =
      (a ++ "=" ++ next) :: claimNormalizeAmended rest2 := by
  simp only [claimNormalizeAmended, if_neg ha, if_pos ht]

theorem cnA_pass {a next : String} (ha : a ≠ "") (ht : ¬ mergeTrigger a next = true)
    (rest2 : List String) :
    claimNormalizeAmended (a :: next :: rest2) =
      a :: claimNormalizeAmended (next :: rest2) := by
  simp only [claimNormalizeAmended, if_neg ha, if_neg ht]

theorem vcs_eq_claimAmended_aux (c : String) :
    ∀ (n : Nat) (l : List String), l.length ≤ n →
      validateCommandSyntax c l = claimNormalizeAmended l := by
  intro n
  induction n with
  | zero =>
    intro l hl
    have h0 : l = [] := List.length_eq_zero.mp (Nat.le_zero.mp hl)
    subst h0
    rfl
  | succ n ih =>
    intro l hl
    cases l with
    | nil => rfl
    | cons a rest =>
      rw [List.length_cons, Nat.succ_le_succ_iff] at hl
      by_cases he : a = ""
      · subst he
        rw [vcs_skip, cnA_skip]
        exact ih rest hl
      · cases rest with
        | nil => rw [vcs_single c he, cnA_single he]
        | cons next rest2 =>
          by_cases ht : mergeTrigger a next = true
          · obtain ⟨hsc, hnd⟩ := and_eq_true_iff.mp ht
            obtain ⟨hdd, hco⟩ := and_eq_true_iff.mp hsc
            have hm : (equalsOptions.contains (jsSubstringFrom a 2) && !jsStartsWith next "-") = true := by
              rw [hco, hnd]
              rfl
            rw [vcs_merge c he hdd hm rest2, cnA_merge he ht rest2]
            rw [ih rest2 (by simp only [List.length_cons] at hl; omega)]
          · have hp : ¬ (jsStartsWith a "--" = true ∧
                (equalsOptions.contains (jsSubstringFrom a 2) && !jsStartsWith next "-") = true) := by
              rintro ⟨hdd, hcond⟩
              obtain ⟨hco, hnd⟩ := and_eq_true_iff.mp hcond
              apply ht
              rw [mergeTrigger, hdd, hco, hnd]
              rfl
            rw [vcs_pass c he hp rest2, cnA_pass he ht rest2]
            rw [ih (next :: rest2) (by simpa using hl)]

theorem vcs_eq_claimAmended (c : String) (l : List String) :
    validateCommandSyntax c l = claimNormalizeAmended l :=
  vcs_eq_claimAmended_aux c l.length l le_rfl

theorem vcs_cons_of_nc (c : String) {a : String} (ha : a ≠ "")
    (hnc : (jsStartsWith a "--" && equalsOptions.contains (jsSubstringFrom a 2)) = false)
    (l : List String) :
    validateCommandSyntax c (a :: l) = a :: validateCommandSyntax c l := by
  cases l with
  | nil => rw [vcs_single c ha, vcs_nil]
  | cons x xs =>
    apply vcs_pass c ha
    rintro ⟨hdd, hcond⟩
    obtain ⟨hco, _⟩ := and_eq_true_iff.mp hcond
    rw [hdd, hco] at hnc
    exact absurd hnc (by decide)

theorem noEmptyMergeValue_tail {a : String} {l : List String}
    (h : noEmptyMergeValue (a :: l) = true) : noEmptyMergeValue l = true := by
  cases l with
  | nil => rfl
  | cons b t =>
    rw [noEmptyMergeValue] at h
    exact (and_eq_true_iff.mp h).2

theorem vcs_no_empty_aux (c : String) :
    ∀ (n : Nat) (l : List String), l.length ≤ n → "" ∉ validateCommandSyntax c l := by
  intro n
  induction n with
  | zero =>
    intro l hl
    have h0 : l = [] := List.length_eq_zero.mp (Nat.le_zero.mp hl)
    subst h0
    simp [vcs_nil]
  | succ n ih =>
    intro l hl
    cases l with
    | nil => simp [vcs_nil]
    | cons a rest =>
      rw [List.length_cons, Nat.succ_le_succ_iff] at hl
      by_cases he : a = ""
      · subst he
        rw [vcs_skip]
        exact ih rest hl
      · cases rest with
        | nil =>
          rw [vcs_single c he]
          simp only [List.mem_singleton]
          exact fun h => he h.symm
        | cons next rest2 =>
          by_cases hd : jsStartsWith a "--" = true
          · by_cases hm : (equalsOptions.contains (jsSubstringFrom a 2) && !jsStartsWith next "-") = true
            · rw [vcs_merge c he hd hm rest2]
              intro hmem
              rcases List.mem_cons.mp hmem with h1 | h2
              · exact merged_ne_empty hd next h1.symm
              · exact ih rest2 (by simp only [List.length_cons] at hl; omega) h2
            · rw [vcs_pass c he (fun hp => hm hp.2) rest2]
              intro hmem
              rcases List.mem_cons.mp hmem with h1 | h2
              · exact he h1.symm
              · exact ih (next :: rest2) (by simpa using hl) h2
          · rw [vcs_pass c he (fun hp => hd hp.1) rest2]
            intro hmem
            rcases List.mem_cons.mp hmem with h1 | h2
            · exact he h1.symm
            · exact ih (next :: rest2) (by simpa using hl) h2

theorem vcs_no_empty (c : String) (l : List String) :
    "" ∉ validateCommandSyntax c l :=
  vcs_no_empty_aux c l.length l le_rfl

theorem jsStartsWith_empty_dash : jsStartsWith "" "-" = false := rfl

theorem vcs_filter_aux (c : String) :
    ∀ (n : Nat) (l : List String), l.length ≤ n → noEmptyMergeValue l = true →
      validateCommandSyntax c l =
        validateCommandSyntax c (l.filter (fun a => a ≠ "")) := by
  intro n
  induction n with
  | zero =>
    intro l hl _
    have h0 : l = [] := List.length_eq_zero.mp (Nat.le_zero.mp hl)
    subst h0
    rfl
  | succ n ih =>
    intro l hl h
    cases l with
    | nil => rfl
    | cons a rest =>
      rw [List.length_cons, Nat.succ_le_succ_iff] at hl
      by_cases he : a = ""
      · subst he
        rw [vcs_skip, List.filter_cons_of_neg (by simp)]
        exact ih rest hl (noEmptyMergeValue_tail h)
      · cases rest with
        | nil =>
          rw [List.filter_cons_of_pos (by simpa using he)]
          rfl
        | cons b t =>
          have h1 : (mergeTrigger a b && decide (b = "")) = false := by
            rw [noEmptyMergeValue] at h
            have := (and_eq_true_iff.mp h).1
            rwa [Bool.not_eq_true'] at this
          have h2 : noEmptyMergeValue (b :: t) = true := noEmptyMergeValue_tail h
          rw [List.filter_cons_of_pos (by simpa using he)]
          by_cases htr : mergeTrigger a b = true
          · have hb : b ≠ "" := by
              rw [htr, Bool.true_and] at h1
              exact of_decide_eq_false h1
            obtain ⟨hsc, hnd⟩ := and_eq_true_iff.mp htr
            obtain ⟨hdd, hco⟩ := and_eq_true_iff.mp hsc
            have hm : (equalsOptions.contains (jsSubstringFrom a 2) && !jsStartsWith b "-") = true := by
              rw [hco, hnd]
              rfl
            rw [List.filter_cons_of_pos (by simpa using hb)]
            rw [vcs_merge c he hdd hm t, vcs_merge c he hdd hm (t.filter (fun a => a ≠ ""))]
            rw [ih t (by simp only [List.length_cons] at hl; omega)
                (noEmptyMergeValue_tail h2)]
          · by_cases hb : b = ""
            · subst hb
              have hnc : (jsStartsWith a "--" && equalsOptions.contains (jsSubstringFrom a 2)) = false := by
                have hx : mergeTrigger a "" =
                    (jsStartsWith a "--" && equalsOptions.contains (jsSubstringFrom a 2)) := by
                  rw [mergeTrigger, jsStartsWith_empty_dash]
                  simp
                rw [← hx]
                exact Bool.not_eq_true _ ▸ (Bool.eq_false_iff.mpr htr)
              rw [List.filter_cons_of_neg (by simp)]
              rw [vcs_cons_of_nc c he hnc ("" :: t), vcs_skip]
              rw [vcs_cons_of_nc c he hnc (t.filter (fun a => a ≠ ""))]
              rw [ih t (by simp only [List.length_cons] at hl; omega)
                  (noEmptyMergeValue_tail h2)]
            · have hp : ¬ (jsStartsWith a "--" = true ∧
                  (equalsOptions.contains (jsSubstringFrom a 2) && !jsStartsWith b "-") = true) := by
                rintro ⟨hdd, hcond⟩
                obtain ⟨hco, hnd⟩ := and_eq_true_iff.mp hcond
                apply htr
                rw [mergeTrigger, hdd, hco, hnd]
                rfl
              rw [List.filter_cons_of_pos (by simpa using hb)]
              rw [vcs_pass c he hp t, vcs_pass c he hp (t.filter (fun a => a ≠ ""))]
              have hfeq : b :: t.filter (fun a => a ≠ "") = (b :: t).filter (fun a => a ≠ "") := by
                rw [List.filter_cons_of_pos (by simpa using hb)]
              rw [hfeq]
              rw [ih (b :: t) (by simpa using hl) h2]

/-! ### Claim theorems about the normalizer and the validator -/

/-- C9: the syntax normalizer is idempotent — applying
`validateCommandSyntax` to its own output yields that output unchanged;
already-merged `--name=value` tokens are not re-merged or corrupted. -/
theorem c9_normalizer_idempotent (command : String) (args : List String) :
    validateCommandSyntax command (validateCommandSyntax command args) =
      validateCommandSyntax command args :=
  vcs_fixed_of_isNormal command _ (isNormal_vcs command args)

/-- C4 counterexample: the claim says every argument other than a merged
pair passes through unchanged, but on the list `[""]` the source normalizer
drops the empty string while the claim's scan algorithm emits it. -/
theorem c4_counterexample :
    validateCommandSyntax "diff" [""] ≠ claimNormalize [""] := by
  decide

/-- C4 (amended): the normalizer agrees everywhere with the claim's
left-to-right merge algorithm once that algorithm additionally skips
empty-string arguments; in particular `["--unified", "3"]` for `diff`
normalizes to `["--unified=3"]`. -/
theorem c4_normalizer_matches_claim_algorithm :
    (∀ (command : String) (args : List String),
      validateCommandSyntax command args = claimNormalizeAmended args) ∧
    validateCommandSyntax "diff" ["--unified", "3"] = ["--unified=3"] :=
  ⟨fun command args => vcs_eq_claimAmended command args, by decide⟩

/-- C10 counterexample: empty-string arguments are not silently dropped in
every position — immediately after an allow-listed long flag the empty
string is consumed as the flag's merge value (`--format` becomes
`--format=`), so the output differs from the output on the list with the
empty strings removed. -/
theorem c10_counterexample :
    validateCommandSyntax "log" ["--format", ""] ≠
      validateCommandSyntax "log" ((["--format", ""]).filter (fun a => a ≠ "")) := by
  decide

/-- C10 (amended): on every argument list no empty string is ever emitted;
when no empty string immediately follows an allow-listed long-form flag,
the normalizer behaves as if the empty-string arguments were absent (so the
remaining arguments keep their relative order); and an empty string that
does immediately follow an allow-listed long-form flag is consumed as that
flag's empty merge value, producing the single token `--name=`. -/
theorem c10_empty_strings_dropped (command : String) (args : List String) :
    "" ∉ validateCommandSyntax command args ∧
    (noEmptyMergeValue args = true →
      validateCommandSyntax command args =
        validateCommandSyntax command (args.filter (fun a => a ≠ ""))) ∧
    (∀ (a : String) (rest : List String),
      jsStartsWith a "--" = true →
      equalsOptions.contains (jsSubstringFrom a 2) = true →
      validateCommandSyntax command (a :: "" :: rest) =
        (a ++ "=") :: validateCommandSyntax command rest) := by
  refine ⟨vcs_no_empty command args,
    fun h => vcs_filter_aux command args.length args le_rfl h,
    fun a rest hd hco => ?_⟩
  have ha : a ≠ "" := by
    obtain ⟨t, ht⟩ := jsStartsWith_dashdash hd
    exact ne_empty_of_data_cons ht
  have hm : (equalsOptions.contains (jsSubstringFrom a 2) && !jsStartsWith "" "-") = true := by
    rw [hco, jsStartsWith_empty_dash]
    rfl
  rw [vcs_merge command ha hd hm rest, String.append_empty]

/-- C10 witness: the amended claim exercised concretely — a skipped empty
string commutes with filtering, and an empty string after `--format` is
consumed as the empty merge value. -/
theorem c10_empty_strings_dropped_witness :
    ("" ∉ validateCommandSyntax "diff" ["status", "", "--unified", "3"]) ∧
    (noEmptyMergeValue ["status", "", "--unified", "3"] = true ∧
      validateCommandSyntax "diff" ["status", "", "--unified", "3"] =
        validateCommandSyntax "diff"
          ((["status", "", "--unified", "3"]).filter (fun a => a ≠ ""))) ∧
    (jsStartsWith "--format" "--" = true ∧
      equalsOptions.contains (jsSubstringFrom "--format" 2) = true ∧
      validateCommandSyntax "log" ["--format", "", "x"] =
        "--format=" :: validateCommandSyntax "log" ["x"]) := by
  have h1 := c10_empty_strings_dropped "diff" ["status", "", "--unified", "3"]
  have h2 := c10_empty_strings_dropped "log" ["--format", "", "x"]
  exact ⟨h1.1, ⟨by decide, h1.2.1 (by decide)⟩,
    ⟨by decide, by decide, h2.2.2 "--format" ["x"] (by decide) (by decide)⟩⟩

/-- C5 counterexample: the claim's label list says `feature`, so the claim
deems `"feature: add login"` valid (its first line is also within the
length ceiling); the source regex accepts `feat` and rejects this
message. -/
theorem c5_counterexample :
    (validateCommitMessage "feature: add login").valid = false ∧
    (claimValidateCommitMessage "feature: add login").valid = true ∧
    ("feature: add login").length ≤ 72 := by
  decide

/-- C5 (amended, with the source's `feat` in place of the claim's
`feature`): a blank (empty or all-whitespace) message yields exactly the
one emptiness error and is invalid; otherwise the errors are exactly the
format error (when the first line fails the conventional regex over the
eleven labels) followed by the length error (when the first line exceeds 72
characters), neither suppressing the other; and the message is valid
exactly when the error list is empty. -/
theorem c5_validator_characterization (message : String) :
    ((validateCommitMessage message).valid = true ↔
      (validateCommitMessage message).errors = []) ∧
    (isBlankMessage message = true →
      validateCommitMessage message = ⟨false, [emptyMsgError]⟩) ∧
    (isBlankMessage message = false →
      (validateCommitMessage message).errors =
        (if testConventional COMMIT_TYPES (firstLineOf message) then []
         else [formatErrorMsg]) ++
        (if (firstLineOf message).length > 72 then [lengthErrorMsg] else [])) := by
  unfold validateCommitMessage
  by_cases hb : isBlankMessage message = true
  · rw [if_pos hb]
    refine ⟨by simp, fun _ => rfl, fun h => ?_⟩
    rw [hb] at h
    exact absurd h (by decide)
  · rw [if_neg hb]
    refine ⟨?_, fun h => absurd h hb, fun _ => rfl⟩
    dsimp only
    rw [← List.isEmpty_iff]

/-- C5 witness: the blank-message clause of the characterization at the
empty message. -/
theorem c5_validator_characterization_witness :
    validateCommitMessage "" = ⟨false, [emptyMsgError]⟩ :=
  (c5_validator_characterization "").2.1 (by decide)

/-! ### Supporting lemmas about the master-tool model -/

theorem runTool_result (req : Request) (o : Oracle) (fs : FS) :
    (runTool req o fs).result =
      (match (runTry req o fs).outcome with
        | .ok r => r
        | .error e => catchResult req.command (runTry req o fs).argsNow e) := rfl

theorem runTool_spawns (req : Request) (o : Oracle) (fs : FS) :
    (runTool req o fs).spawns = (runTry req o fs).spawns := rfl

theorem runTool_fsFinal (req : Request) (o : Oracle) (fs : FS) :
    (runTool req o fs).fsFinal =
      runFinally (runTry req o fs).fs (runTry req o fs).commitMessageFile := rfl

theorem afterStage_fs (req : Request) (o : Oracle) (fs : FS) (cmf : Option String)
    (args : List String) : (afterStage req o fs cmf args).fs = fs := by
  unfold afterStage
  repeat' split <;> try rfl

theorem afterStage_cmf (req : Request) (o : Oracle) (fs : FS) (cmf : Option String)
    (args : List String) : (afterStage req o fs cmf args).commitMessageFile = cmf := by
  unfold afterStage
  repeat' split <;> try rfl

theorem afterStage_argsNow (req : Request) (o : Oracle) (fs : FS) (cmf : Option String)
    (args : List String) : (afterStage req o fs cmf args).argsNow = args := by
  unfold afterStage
  repeat' split <;> try rfl

theorem afterStage_outcome_const (req : Request) (o : Oracle) (fs fs' : FS)
    (cmf cmf' : Option String) (args : List String) :
    (afterStage req o fs cmf args).outcome = (afterStage req o fs' cmf' args).outcome := by
  unfold afterStage
  repeat' split <;> try rfl

theorem afterStage_spawn_mem (req : Request) (o : Oracle) (fs : FS) (cmf : Option String)
    (args : List String) :
    ∀ ev ∈ (afterStage req o fs cmf args).spawns,
      ev = ⟨"git", req.command :: args, fs⟩ := by
  intro ev hev
  unfold afterStage at hev
  repeat' (split at hev)
  all_goals (simp at hev; try exact hev)

theorem runTry_plain (req : Request) (o : Oracle) (fs : FS)
    (hR : o.repoValid = true) (hs : stagingActive req = false) :
    runTry req o fs = afterStage req o fs none (classifierArgs req o) := by
  simp [runTry, hR, hs, classifierArgs]

theorem runTry_staged (req : Request) (o : Oracle) (fs : FS)
    (hR : o.repoValid = true) (hs : stagingActive req = true)
    (hw : o.writeBehavior = Except.ok ()) :
    runTry req o fs =
      afterStage req o (fsWrite fs (tempMessagePath o) (req.commitMessage.getD ""))
        (some (tempMessagePath o)) (classifierArgs req o) := by
  simp [runTry, hR, hs, hw, classifierArgs]

theorem runTry_noRepo (req : Request) (o : Oracle) (fs : FS)
    (hR : o.repoValid = false) :
    runTry req o fs =
      ⟨.error notGitRepoThrown, [], fs, none, req.args⟩ := by
  simp [runTry, hR]

theorem runTry_writeFail (req : Request) (o : Oracle) (fs : FS) {e : Thrown}
    (hR : o.repoValid = true) (hs : stagingActive req = true)
    (hw : o.writeBehavior = Except.error e) :
    runTry req o fs =
      ⟨.error e, [], fs, some (tempMessagePath o),
        validateCommandSyntax req.command req.args⟩ := by
  simp [runTry, hR, hs, hw]

theorem afterStage_blocked (req : Request) (o : Oracle) (fs : FS) (cmf : Option String)
    (args : List String)
    (hB : (!req.allowDangerous && isDangerousCommand req.command args) = true) :
    afterStage req o fs cmf args =
      ⟨.ok (blockedResult req.command args), [], fs, cmf, args⟩ := by
  simp [afterStage, hB]

theorem afterStage_execError (req : Request) (o : Oracle) (fs : FS) (cmf : Option String)
    (args : List String) {e : Thrown}
    (hB : (!req.allowDangerous && isDangerousCommand req.command args) = false)
    (he : o.execBehavior = Except.error e) :
    afterStage req o fs cmf args =
      ⟨.error e, [⟨"git", req.command :: args, fs⟩], fs, cmf, args⟩ := by
  simp [afterStage, hB, he]

theorem afterStage_execZero (req : Request) (o : Oracle) (fs : FS) (cmf : Option String)
    (args : List String) {res : ExecOutcome}
    (hB : (!req.allowDangerous && isDangerousCommand req.command args) = false)
    (he : o.execBehavior = Except.ok res) (hz : res.exitCode = 0) :
    afterStage req o fs cmf args =
      ⟨.ok (successResult req.command args res
          (if requiresCaution req.command then [cautionWarning req.command] else [])),
        [⟨"git", req.command :: args, fs⟩], fs, cmf, args⟩ := by
  simp [afterStage, hB, he, hz]

theorem afterStage_execNonzero (req : Request) (o : Oracle) (fs : FS) (cmf : Option String)
    (args : List String) {res : ExecOutcome}
    (hB : (!req.allowDangerous && isDangerousCommand req.command args) = false)
    (he : o.execBehavior = Except.ok res) (hz : ¬ res.exitCode = 0) :
    afterStage req o fs cmf args =
      ⟨.ok (failedResult req.command args res),
        [⟨"git", req.command :: args, fs⟩], fs, cmf, args⟩ := by
  simp [afterStage, hB, he, hz]

theorem fsAny_eq_false_of_lookup_none {fs : FS} {p : String}
    (h : fsLookup fs p = none) : fs.any (fun e => e.1 = p) = false := by
  rw [fsLookup, Option.map_eq_none', List.find?_eq_none] at h
  rw [List.any_eq_false]
  exact h

theorem fsLookup_filter_out (l : FS) (p : String) :
    fsLookup (l.filter (fun e => e.1 ≠ p)) p = none := by
  rw [fsLookup, Option.map_eq_none', List.find?_eq_none]
  intro x hx
  have hp := (List.mem_filter.mp hx).2
  simp at hp ⊢
  exact hp

theorem fsLookup_fsWrite (fs : FS) (p c : String) :
    fsLookup (fsWrite fs p c) p = some c := by
  rw [fsLookup, fsWrite, List.find?_cons_of_pos _ (by simp)]
  rfl

theorem runFinally_absent {fs : FS} {p : String} (h : fsLookup fs p = none) :
    runFinally fs (some p) = fs := by
  have hany := fsAny_eq_false_of_lookup_none h
  simp [runFinally, fsUnlink, hany]

theorem runFinally_write (fs : FS) (p c : String) :
    runFinally (fsWrite fs p c) (some p) =
      (fsWrite fs p c).filter (fun e => e.1 ≠ p) := by
  have hany : (fsWrite fs p c).any (fun e => e.1 = p) = true := by
    simp [fsWrite]
  simp [runFinally, fsUnlink, hany]

theorem runTry_outcome_const (req : Request) (o : Oracle) (fs1 fs2 : FS) :
    (runTry req o fs1).outcome = (runTry req o fs2).outcome ∧
    (runTry req o fs1).argsNow = (runTry req o fs2).argsNow := by
  rcases hRv : o.repoValid with _ | _
  · rw [runTry_noRepo req o fs1 hRv, runTry_noRepo req o fs2 hRv]
    exact ⟨rfl, rfl⟩
  · rcases hsv : stagingActive req with _ | _
    · rw [runTry_plain req o fs1 hRv hsv, runTry_plain req o fs2 hRv hsv]
      exact ⟨afterStage_outcome_const req o fs1 fs2 none none _,
        by rw [afterStage_argsNow, afterStage_argsNow]⟩
    · rcases hwv : o.writeBehavior with e | u
      · rw [runTry_writeFail req o fs1 hRv hsv hwv, runTry_writeFail req o fs2 hRv hsv hwv]
        exact ⟨rfl, rfl⟩
      · rw [runTry_staged req o fs1 hRv hsv (by rw [hwv]),
            runTry_staged req o fs2 hRv hsv (by rw [hwv])]
        exact ⟨afterStage_outcome_const req o _ _ _ _ _,
          by rw [afterStage_argsNow, afterStage_argsNow]⟩

theorem runTool_result_cases (req : Request) (o : Oracle) (fs : FS) :
    (∃ a e, (runTool req o fs).result = catchResult req.command a e) ∨
    (∃ a, (runTool req o fs).result = blockedResult req.command a) ∨
    (∃ a res w, (runTool req o fs).result = successResult req.command a res w) ∨
    (∃ a res, (runTool req o fs).result = failedResult req.command a res) := by
  rcases hRv : o.repoValid with _ | _
  · exact Or.inl ⟨req.args, notGitRepoThrown,
      by rw [runTool_result, runTry_noRepo req o fs hRv]⟩
  · have hmain : ∀ (fs' : FS) (cmf : Option String),
        runTry req o fs = afterStage req o fs' cmf (classifierArgs req o) →
        (∃ a e, (runTool req o fs).result = catchResult req.command a e) ∨
        (∃ a, (runTool req o fs).result = blockedResult req.command a) ∨
        (∃ a res w, (runTool req o fs).result = successResult req.command a res w) ∨
        (∃ a res, (runTool req o fs).result = failedResult req.command a res) := by
      intro fs' cmf ht
      rcases hB : (!req.allowDangerous && isDangerousCommand req.command (classifierArgs req o))
        with _ | _
      · rcases he : o.execBehavior with e | res
        · exact Or.inl ⟨classifierArgs req o, e,
            by rw [runTool_result, ht, afterStage_execError req o fs' cmf _ hB he]⟩
        · by_cases hz : res.exitCode = 0
          · exact Or.inr (Or.inr (Or.inl ⟨classifierArgs req o, res, _,
              by rw [runTool_result, ht, afterStage_execZero req o fs' cmf _ hB he hz]⟩))
          · exact Or.inr (Or.inr (Or.inr ⟨classifierArgs req o, res,
              by rw [runTool_result, ht, afterStage_execNonzero req o fs' cmf _ hB he hz]⟩))
      · exact Or.inr (Or.inl ⟨classifierArgs req o,
          by rw [runTool_result, ht, afterStage_blocked req o fs' cmf _ hB]⟩)
    rcases hsv : stagingActive req with _ | _
    · exact hmain fs none (runTry_plain req o fs hRv hsv)
    · rcases hwv : o.writeBehavior with e | u
      · exact Or.inl ⟨validateCommandSyntax req.command req.args, e,
          by rw [runTool_result, runTry_writeFail req o fs hRv hsv hwv]⟩
      · exact hmain _ _ (runTry_staged req o fs hRv hsv (by rw [hwv]))

theorem reached_exec (req : Request) (o : Oracle) (fs : FS)
    (hs : (runTool req o fs).spawns ≠ []) :
    o.repoValid = true ∧
    ∃ (fs' : FS) (cmf : Option String),
      runTry req o fs = afterStage req o fs' cmf (classifierArgs req o) ∧
      (!req.allowDangerous && isDangerousCommand req.command (classifierArgs req o)) = false := by
  rcases hRv : o.repoValid with _ | _
  · exact absurd (by rw [runTool_spawns, runTry_noRepo req o fs hRv]) hs
  · refine ⟨rfl, ?_⟩
    have hafter : ∀ (fs' : FS) (cmf : Option String),
        runTry req o fs = afterStage req o fs' cmf (classifierArgs req o) →
        ∃ (fs' : FS) (cmf : Option String),
          runTry req o fs = afterStage req o fs' cmf (classifierArgs req o) ∧
          (!req.allowDangerous && isDangerousCommand req.command (classifierArgs req o)) = false := by
      intro fs' cmf ht
      rcases hB : (!req.allowDangerous && isDangerousCommand req.command (classifierArgs req o))
        with _ | _
      · exact ⟨fs', cmf, ht, rfl⟩
      · exact absurd
          (by rw [runTool_spawns, ht, afterStage_blocked req o fs' cmf _ hB]) hs
    rcases hsv : stagingActive req with _ | _
    · exact hafter fs none (runTry_plain req o fs hRv hsv)
    · rcases hwv : o.writeBehavior with e | u
      · exact absurd (by rw [runTool_spawns, runTry_writeFail req o fs hRv hsv hwv]) hs
      · exact hafter _ _ (runTry_staged req o fs hRv hsv (by rw [hwv]))

theorem tempMessagePath_ne_dashm (o : Oracle) : tempMessagePath o ≠ "-m" := by
  intro h
  have hlen := congrArg String.length h
  rw [tempMessagePath] at hlen
  simp only [String.length_append] at hlen
  have h1 : ("/commit_message_").length = 16 := rfl
  have h2 : (".txt").length = 4 := rfl
  have h3 : ("-m").length = 2 := rfl
  rw [h1, h2, h3] at hlen
  omega

theorem not_dashm_mem_stageArgs {file : String} (hf : file ≠ "-m") (args : List String) :
    "-m" ∉ stageArgs file args := by
  intro h
  rw [stageArgs] at h
  rcases List.mem_cons.mp h with h1 | h2
  · exact absurd h1 (by decide)
  · rcases List.mem_cons.mp h2 with h3 | h4
    · exact hf h3.symm
    · have hp := (List.mem_filter.mp h4).2
      simp at hp

/-! ### Claim theorems about the master tool -/

/-- C3: on every path of the tool-invocation boundary — blocked,
precondition failure, execution failure, execution success, caught
exception — exactly one of `data` and `error` is present in the returned
Tool Result, keyed to the `success` discriminant. -/
theorem c3_data_error_exclusive (req : Request) (o : Oracle) (fs : FS) :
    ((runTool req o fs).result.data.isSome = true ↔
      (runTool req o fs).result.success = true) ∧
    ((runTool req o fs).result.error.isSome = true ↔
      (runTool req o fs).result.success = false) := by
  rcases runTool_result_cases req o fs with ⟨a, e, hr⟩ | ⟨a, hr⟩ | ⟨a, res, w, hr⟩ | ⟨a, res, hr⟩ <;>
    rw [hr] <;>
    simp [catchResult, blockedResult, successResult, failedResult]

/-- C1: whenever `allowDangerous` is false and the joined
`"<command> <args>"` string seen by the safety classifier (the arguments
after syntax normalization and commit-message staging, per the spec's data
flow) contains a dangerous phrase, the tool spawns no subprocess and
returns a failure result with code `DANGEROUS_COMMAND_BLOCKED`,
`recoverable = false`, and a suggestion naming the `allowDangerous`
override. -/
theorem c1_dangerous_blocked (req : Request) (o : Oracle) (fs : FS)
    (hA : req.allowDangerous = false) (hR : o.repoValid = true)
    (hW : stagingActive req = true → o.writeBehavior = Except.ok ())
    (hD : isDangerousCommand req.command (classifierArgs req o) = true) :
    (runTool req o fs).spawns = [] ∧
    (runTool req o fs).result.success = false ∧
    (runTool req o fs).result.data = none ∧
    ∃ err : ErrorInfo, (runTool req o fs).result.error = some err ∧
      err.code = "DANGEROUS_COMMAND_BLOCKED" ∧
      err.recoverable = false ∧
      err.suggestion = some blockedSuggestion ∧
      jsIncludes blockedSuggestion "allowDangerous: true" = true := by
  have hB : (!req.allowDangerous && isDangerousCommand req.command (classifierArgs req o)) = true := by
    rw [hA, hD]
    rfl
  have hmain : (runTool req o fs).result = blockedResult req.command (classifierArgs req o) ∧
      (runTool req o fs).spawns = [] := by
    rcases hsv : stagingActive req with _ | _
    · have ht := runTry_plain req o fs hR hsv
      have hbl := afterStage_blocked req o fs none (classifierArgs req o) hB
      exact ⟨by rw [runTool_result, ht, hbl], by rw [runTool_spawns, ht, hbl]⟩
    · have ht := runTry_staged req o fs hR hsv (hW hsv)
      have hbl := afterStage_blocked req o
        (fsWrite fs (tempMessagePath o) (req.commitMessage.getD ""))
        (some (tempMessagePath o)) (classifierArgs req o) hB
      exact ⟨by rw [runTool_result, ht, hbl], by rw [runTool_spawns, ht, hbl]⟩
  rw [hmain.2, hmain.1]
  exact ⟨rfl, rfl, rfl, _, rfl, rfl, rfl, rfl, by decide⟩

/-- C1 witness: the spec scenario `{command: "reset", args: ["--hard",
"HEAD~1"], allowDangerous: false}` is blocked without a spawn. -/
theorem c1_dangerous_blocked_witness :
    isDangerousCommand "reset"
      (classifierArgs ⟨"reset", ["--hard", "HEAD~1"], false, none⟩ oracleOk) = true ∧
    ((runTool ⟨"reset", ["--hard", "HEAD~1"], false, none⟩ oracleOk []).spawns = [] ∧
     (runTool ⟨"reset", ["--hard", "HEAD~1"], false, none⟩ oracleOk []).result.success = false ∧
     (runTool ⟨"reset", ["--hard", "HEAD~1"], false, none⟩ oracleOk []).result.data = none ∧
     ∃ err : ErrorInfo,
       (runTool ⟨"reset", ["--hard", "HEAD~1"], false, none⟩ oracleOk []).result.error = some err ∧
       err.code = "DANGEROUS_COMMAND_BLOCKED" ∧
       err.recoverable = false ∧
       err.suggestion = some blockedSuggestion ∧
       jsIncludes blockedSuggestion "allowDangerous: true" = true) :=
  ⟨by decide,
   c1_dangerous_blocked ⟨"reset", ["--hard", "HEAD~1"], false, none⟩ oracleOk []
     rfl rfl (fun _ => rfl) (by decide)⟩

/-- C2: for a commit invocation with a non-empty `commitMessage`, the
temporary commit-message file is absent from the filesystem when the call
returns on every exit path, and the returned Tool Result never depends on
the filesystem (so a cleanup failure cannot change it). -/
theorem c2_temp_file_cleanup (req : Request) (o : Oracle) (fs0 : FS) (m : String)
    (hC : req.command = "commit") (hM : req.commitMessage = some m) (hne : m ≠ "")
    (hpre : fsLookup fs0 (tempMessagePath o) = none) :
    fsLookup (runTool req o fs0).fsFinal (tempMessagePath o) = none ∧
    (∀ fs1 fs2 : FS, (runTool req o fs1).result = (runTool req o fs2).result) := by
  have hs : stagingActive req = true := by
    simp [stagingActive, hC, hM, hne]
  constructor
  · rcases hRv : o.repoValid with _ | _
    · rw [runTool_fsFinal, runTry_noRepo req o fs0 hRv]
      exact hpre
    · rcases hwv : o.writeBehavior with e | u
      · rw [runTool_fsFinal, runTry_writeFail req o fs0 hRv hs hwv]
        rw [show (⟨Except.error e, [], fs0, some (tempMessagePath o),
          validateCommandSyntax req.command req.args⟩ : TryOutcome).fs = fs0 from rfl]
        rw [runFinally_absent hpre]
        exact hpre
      · rw [runTool_fsFinal, runTry_staged req o fs0 hRv hs (by rw [hwv])]
        rw [afterStage_fs, afterStage_cmf, runFinally_write]
        exact fsLookup_filter_out _ _
  · intro fs1 fs2
    rw [runTool_result, runTool_result,
      (runTry_outcome_const req o fs1 fs2).1, (runTry_outcome_const req o fs1 fs2).2]

/-- C2 witness: a concrete successful commit run leaves no temp file, and
its result is the same on two different initial filesystems. -/
theorem c2_temp_file_cleanup_witness :
    fsLookup (runTool ⟨"commit", [], false, some "feat: x"⟩ oracleOk []).fsFinal
      (tempMessagePath oracleOk) = none ∧
    (runTool ⟨"commit", [], false, some "feat: x"⟩ oracleOk [("/tmp/a", "b")]).result =
      (runTool ⟨"commit", [], false, some "feat: x"⟩ oracleOk []).result := by
  have h := c2_temp_file_cleanup ⟨"commit", [], false, some "feat: x"⟩ oracleOk []
    "feat: x" rfl rfl (by decide) rfl
  exact ⟨h.1, h.2 [("/tmp/a", "b")] []⟩

/-- C6: for a commit invocation with a non-empty `commitMessage`, every
argument list passed to the executor begins `commit -F <temp-path>`,
contains no literal `-m`, and at the moment of the spawn the temp file
holds exactly the commit message. -/
theorem c6_commit_staging (req : Request) (o : Oracle) (fs0 : FS) (m : String)
    (hC : req.command = "commit") (hM : req.commitMessage = some m) (hne : m ≠ "") :
    ∀ ev ∈ (runTool req o fs0).spawns,
      (∃ rest, ev.argv = "commit" :: "-F" :: tempMessagePath o :: rest) ∧
      "-m" ∉ ev.argv ∧
      fsLookup ev.fsAt (tempMessagePath o) = some m := by
  have hs : stagingActive req = true := by
    simp [stagingActive, hC, hM, hne]
  intro ev hev
  rw [runTool_spawns] at hev
  rcases hRv : o.repoValid with _ | _
  · rw [runTry_noRepo req o fs0 hRv] at hev
    simp at hev
  · rcases hwv : o.writeBehavior with e | u
    · rw [runTry_writeFail req o fs0 hRv hs hwv] at hev
      simp at hev
    · rw [runTry_staged req o fs0 hRv hs (by rw [hwv])] at hev
      have hev2 := afterStage_spawn_mem req o _ _ _ ev hev
      have hgd : req.commitMessage.getD "" = m := by
        rw [hM]
        rfl
      have hca : classifierArgs req o =
          stageArgs (tempMessagePath o) (validateCommandSyntax req.command req.args) := by
        simp [classifierArgs, hs]
      rw [hev2, hca, hgd, hC]
      refine ⟨⟨(validateCommandSyntax "commit" req.args).filter
          (fun arg => arg ≠ "-m" && !jsStartsWith arg "commit message"), ?_⟩, ?_, ?_⟩
      · rfl
      · show "-m" ∉ "commit" :: stageArgs (tempMessagePath o) (validateCommandSyntax "commit" req.args)
        intro hmem
        rcases List.mem_cons.mp hmem with h1 | h2
        · exact absurd h1 (by decide)
        · exact not_dashm_mem_stageArgs (tempMessagePath_ne_dashm o) _ h2
      · exact fsLookup_fsWrite fs0 (tempMessagePath o) m

/-- C6 witness: the spec scenario `{command: "commit", args: [],
commitMessage: "feat: x\n\nbody line"}` at its one spawn event. -/
theorem c6_commit_staging_witness :
    (∃ rest, (⟨"git", ["commit", "-F", "/repo/commit_message_0.txt"],
        [("/repo/commit_message_0.txt", "feat: x\n\nbody line")]⟩ : SpawnEvent).argv =
      "commit" :: "-F" :: tempMessagePath oracleOk :: rest) ∧
    "-m" ∉ (⟨"git", ["commit", "-F", "/repo/commit_message_0.txt"],
        [("/repo/commit_message_0.txt", "feat: x\n\nbody line")]⟩ : SpawnEvent).argv ∧
    fsLookup (⟨"git", ["commit", "-F", "/repo/commit_message_0.txt"],
        [("/repo/commit_message_0.txt", "feat: x\n\nbody line")]⟩ : SpawnEvent).fsAt
      (tempMessagePath oracleOk) = some "feat: x\n\nbody line" :=
  c6_commit_staging ⟨"commit", [], false, some "feat: x\n\nbody line"⟩ oracleOk []
    "feat: x\n\nbody line" rfl rfl (by decide) _ (by decide)

/-- C7: an executed request whose subprocess exits nonzero yields (without
a thrown exception) a failure Tool Result with code `GIT_COMMAND_FAILED`,
`recoverable = true`, the captured exit code and streams in the details,
and the syntax/repository-state suggestion. -/
theorem c7_nonzero_exit (req : Request) (o : Oracle) (fs : FS) (res : ExecOutcome)
    (hs : (runTool req o fs).spawns ≠ [])
    (he : o.execBehavior = Except.ok res) (hnz : res.exitCode ≠ 0) :
    (runTool req o fs).result.success = false ∧
    (runTool req o fs).result.data = none ∧
    ∃ err : ErrorInfo, (runTool req o fs).result.error = some err ∧
      err.code = "GIT_COMMAND_FAILED" ∧
      err.recoverable = true ∧
      err.details = ErrDetails.execInfo res.exitCode res.stderr res.stdout ∧
      err.suggestion = some failedSuggestion := by
  obtain ⟨hR, fs', cmf, ht, hB⟩ := reached_exec req o fs hs
  have hres : (runTool req o fs).result = failedResult req.command (classifierArgs req o) res := by
    rw [runTool_result, ht, afterStage_execNonzero req o fs' cmf _ hB he hnz]
  rw [hres]
  exact ⟨rfl, rfl, _, rfl, rfl, rfl, rfl, rfl⟩

/-- C7 witness: a concrete `status` run whose subprocess exits 1. -/
theorem c7_nonzero_exit_witness :
    (runTool ⟨"status", [], false, none⟩ oracleFail []).result.success = false ∧
    (runTool ⟨"status", [], false, none⟩ oracleFail []).result.data = none ∧
    ∃ err : ErrorInfo,
      (runTool ⟨"status", [], false, none⟩ oracleFail []).result.error = some err ∧
      err.code = "GIT_COMMAND_FAILED" ∧
      err.recoverable = true ∧
      err.details = ErrDetails.execInfo 1 "error: pathspec" "" ∧
      err.suggestion = some failedSuggestion :=
  c7_nonzero_exit ⟨"status", [], false, none⟩ oracleFail [] ⟨1, "", "error: pathspec"⟩
    (by decide) rfl (by decide)

/-- C8: a request whose command name is exactly one of the caution
commands (rebase, merge, cherry-pick, reset) and that is not blocked —
in particular whenever `allowDangerous = true` — proceeds to execution, and
a successful run carries the caution warning in its warnings. -/
theorem c8_caution_commands (req : Request) (o : Oracle) (fs : FS)
    (hc : requiresCaution req.command = true) (hR : o.repoValid = true)
    (hnb : req.allowDangerous = true ∨
      isDangerousCommand req.command (classifierArgs req o) = false) :
    (runTool req o fs).spawns ≠ [] ∧
    (∀ res : ExecOutcome, o.execBehavior = Except.ok res → res.exitCode = 0 →
      (runTool req o fs).result.success = true ∧
      (runTool req o fs).result.warnings = [cautionWarning req.command]) := by
  have hcomm : req.command ≠ "commit" := by
    intro h
    rw [h] at hc
    exact absurd hc (by decide)
  have hsv : stagingActive req = false := by
    simp [stagingActive, hcomm]
  have ht := runTry_plain req o fs hR hsv
  have hB : (!req.allowDangerous && isDangerousCommand req.command (classifierArgs req o)) = false := by
    rcases hnb with h | h
    · rw [h]
      rfl
    · rw [h, Bool.and_false]
  constructor
  · rcases he : o.execBehavior with e | res
    · rw [runTool_spawns, ht, afterStage_execError req o fs none _ hB he]
      simp
    · by_cases hz : res.exitCode = 0
      · rw [runTool_spawns, ht, afterStage_execZero req o fs none _ hB he hz]
        simp
      · rw [runTool_spawns, ht, afterStage_execNonzero req o fs none _ hB he hz]
        simp
  · intro res he hz
    have hres : (runTool req o fs).result =
        successResult req.command (classifierArgs req o) res [cautionWarning req.command] := by
      rw [runTool_result, ht, afterStage_execZero req o fs none _ hB he hz, if_pos hc]
    rw [hres]
    exact ⟨rfl, rfl⟩

/-- C8 witness: the spec scenario — `reset --hard HEAD~1` with
`allowDangerous = true` executes and succeeds with the caution warning. -/
theorem c8_caution_commands_witness :
    requiresCaution "reset" = true ∧
    (runTool ⟨"reset", ["--hard", "HEAD~1"], true, none⟩ oracleOk []).spawns ≠ [] ∧
    (runTool ⟨"reset", ["--hard", "HEAD~1"], true, none⟩ oracleOk []).result.success = true ∧
    (runTool ⟨"reset", ["--hard", "HEAD~1"], true, none⟩ oracleOk []).result.warnings =
      [cautionWarning "reset"] := by
  have h := c8_caution_commands ⟨"reset", ["--hard", "HEAD~1"], true, none⟩ oracleOk []
    (by decide) rfl (Or.inl rfl)
  exact ⟨by decide, h.1, (h.2 ⟨0, "", ""⟩ rfl rfl).1, (h.2 ⟨0, "", ""⟩ rfl rfl).2⟩

end GitAgent
